import Mathlib

/-!
Verification of the dumont benchmarking worker agent.

Shallow embedding of the core routing, probing, measurement-statistics and
supervisor logic of the repository, together with theorems checking the
specification claims against it.

Conventions:
* Python strings are Lean `String`; single-character `str.replace` calls are
  embedded as maps/filters over the character list (identical semantics).
* Python `str.lower` is embedded as `Char.toLower` per character; every string
  the relevant code paths handle is ASCII, where the two agree.
* Python numbers are embedded as exact rationals; IEEE-754 rounding is
  abstracted away (the spec states the numeric laws mathematically).
* Python `dict.get` with possibly-missing / `None` values is `Option`.
-/

namespace Dumont

/-! ## Routing policy (src/core/job_dispatcher.py) -/

/-- Capability normalisation from `JobDispatcher`:
`compute_unit.lower().replace(' ', '_').replace('(', '').replace(')', '')`.
The three `replace` calls have single-character patterns, so they are the
character-wise substitution and deletion below. -/
def normalizeComputeUnit (s : String) : String :=
  String.mk ((((s.data.map Char.toLower).map
    (fun c => if c = ' ' then '_' else c)).filter
    (fun c => !(c == '(') && !(c == ')'))))

/-- Python truthiness of an optional string field (`if worker_id:`):
present and non-empty. -/
def isTruthy : Option String → Bool
  | none => false
  | some s => !(s == "")

/-- Job descriptor fields used by `JobDispatcher.determine_queues` and
`WorkerAgent.execute_benchmark_job`. -/
structure JobInfo where
  jobId : String := ""
  campaignId : Option String := none
  workerId : Option String := none
  computeUnit : Option String := none
  modelUrl : String := ""
  numInferenceRuns : Nat := 10

/-- Embeds `JobDispatcher.determine_queues`: worker pin wins, else a single
capability queue, else no queue. -/
def determineQueues (job : JobInfo) : List String :=
  if isTruthy job.workerId then
    ["jobs:" ++ job.workerId.getD ""]
  else if isTruthy job.computeUnit then
    ["jobs:capability:" ++ normalizeComputeUnit (job.computeUnit.getD "")]
  else
    []

/-- Embeds `JobDispatcher.get_worker_queue_priority`: the personal queue followed by
one capability queue per capability, in order, with no deduplication. -/
def getWorkerQueuePriority (workerId : String) (capabilities : List String) : List String :=
  ("jobs:" ++ workerId) ::
    capabilities.map (fun c => "jobs:capability:" ++ normalizeComputeUnit c)

/-! ## ONNX engine provider selection (src/worker/inference_engines/onnx_engine.py) -/

/-- The base provider list chosen by `ONNXEngine._get_providers` before the
availability intersection: literal matches on `CPU`, `CUDA`, `DML`, a
`startswith` test for `OpenVINO`, and a CPU fallback for everything else. -/
def onnxProviderBase (computeUnit : String) : List String :=
  if computeUnit = "CPU" then
    ["CPUExecutionProvider"]
  else if computeUnit = "CUDA" then
    ["CUDAExecutionProvider", "CPUExecutionProvider"]
  else if computeUnit = "DML" then
    ["DmlExecutionProvider", "CPUExecutionProvider"]
  else if "OpenVINO".data.isPrefixOf computeUnit.data then
    ["OpenVINOExecutionProvider", "CPUExecutionProvider"]
  else
    ["CPUExecutionProvider"]

/-- Embeds `ONNXEngine._get_providers`: the base list filtered to the providers the
runtime advertises (`[p for p in providers if p in available_providers]`). -/
def getProviders (computeUnit : String) (availableProviders : List String) : List String :=
  (onnxProviderBase computeUnit).filter (fun p => availableProviders.contains p)

/-- Following the spec sentence of claim C2 only (for comparison with the
source-derived `getProviders`): the mapping CPU to [CPU], GPU to [CUDA, CPU],
DirectML to [DML, CPU], OpenVINO to [OpenVINO, CPU]; the sentence names no
other compute units. -/
def specC2ProviderBase (computeUnit : String) : List String :=
  if computeUnit = "CPU" then
    ["CPUExecutionProvider"]
  else if computeUnit = "GPU" then
    ["CUDAExecutionProvider", "CPUExecutionProvider"]
  else if computeUnit = "DirectML" then
    ["DmlExecutionProvider", "CPUExecutionProvider"]
  else if computeUnit = "OpenVINO" then
    ["OpenVINOExecutionProvider", "CPUExecutionProvider"]
  else
    []

/-! ## Device probe (src/worker/device_info.py) -/

/-- Substring test embedding the Python expression testing whether the text Apple occurs in cpu_info:
the pattern occurs iff `splitOn` yields more than one part. -/
def containsSub (s pat : String) : Bool :=
  (s.splitOn pat).length ≥ 2

/-- Environment facts `get_compute_units` branches on: whether the module
`onnxruntime` loads, which execution providers it advertises, the OS,
whether `coremltools` loads, and the CPU brand string (empty when the
`sysctl` probe fails). -/
structure ProbeEnv where
  onnxAvailable : Bool := true
  availableProviders : List String := []
  isDarwin : Bool := false
  coremltoolsAvailable : Bool := false
  cpuBrand : String := ""

/-- The ONNX branch of `get_compute_units`: `CPU (ONNX)` always when the
module loads, then GPU / DirectML / OpenVINO keyed on advertised
providers; on `ImportError` the bare string `CPU`. -/
def onnxUnits (env : ProbeEnv) : List String :=
  if env.onnxAvailable then
    ["CPU (ONNX)"]
      ++ (if env.availableProviders.contains "CUDAExecutionProvider" then ["GPU (ONNX)"] else [])
      ++ (if env.availableProviders.contains "DmlExecutionProvider" then ["DirectML (ONNX)"] else [])
      ++ (if env.availableProviders.contains "OpenVINOExecutionProvider" then ["OpenVINO (ONNX)"] else [])
  else
    ["CPU"]

/-- Conditional append, `if u not in units: units.append(u)`, as used twice by
`get_compute_units` for the CoreML capabilities. -/
def appendIfMissing (u : String) (units : List String) : List String :=
  if units.contains u then units else units ++ [u]

/-- The Darwin/CoreML branch of `get_compute_units`: on macOS with
`coremltools` importable and an Apple CPU brand, append the two CoreML
capabilities unless already present (GPU first, then Neural Engine). -/
def addCoreMLUnits (env : ProbeEnv) (units : List String) : List String :=
  if env.isDarwin && env.coremltoolsAvailable && containsSub env.cpuBrand "Apple" then
    appendIfMissing "Neural Engine (CoreML)" (appendIfMissing "GPU (CoreML)" units)
  else
    units

/-- Embeds `get_compute_units()` as a function of the probed environment. -/
def getComputeUnits (env : ProbeEnv) : List String :=
  addCoreMLUnits env (onnxUnits env)

/-- Every capability string `get_compute_units` can ever emit, in any
environment. -/
def masterCapabilities : List String :=
  ["CPU (ONNX)", "GPU (ONNX)", "DirectML (ONNX)", "OpenVINO (ONNX)",
   "CPU", "GPU (CoreML)", "Neural Engine (CoreML)"]

/-! ## Device descriptor Ram field (src/worker/device_info.py) -/

/-- A Python value as it ends up in the device / result dictionaries: here we
only need to distinguish strings from integers. -/
inductive PyValue where
  | str (s : String)
  | int (n : Int)
  deriving DecidableEq, Repr

/-- Whether a dictionary value is a Python integer. -/
def PyValue.isInt : PyValue → Bool
  | .int _ => true
  | .str _ => false

/-- The `Ram` field `get_device_info` emits:
`ram_gb = psutil.virtual_memory().total / (1024 ** 3)` followed by
the dictionary entry Ram := str(int(ram_gb)). Exact division then truncation of a non-negative
value is natural-number division (IEEE rounding of the quotient abstracted). -/
def deviceRamField (totalBytes : Nat) : PyValue :=
  .str (toString (totalBytes / (1024 ^ 3)))

/-! ## Measurement child statistics (src/worker/run_job_task.py) -/

/-- The six timing statistics one measurement phase emits
(`LoadMs*` or `InferenceMs*` keys of the JSON line). -/
structure PhaseStats where
  median : ℚ
  min : ℚ
  max : ℚ
  average : ℚ
  stdDev : ℚ
  first : ℚ
  deriving DecidableEq, Repr

/-- Insertion of a value into a sorted list (ascending). -/
def insertSorted (x : ℚ) : List ℚ → List ℚ
  | [] => [x]
  | y :: ys => if x ≤ y then x :: y :: ys else y :: insertSorted x ys

/-- Ascending sort of the sample list, as `np.median` performs internally
(any correct sort yields the same list). -/
def sortSamples : List ℚ → List ℚ
  | [] => []
  | x :: xs => insertSorted x (sortSamples xs)

/-- Embeds `np.median`: middle element of the sorted samples for odd length, mean of
the two middle elements for even length. -/
def npMedian (l : List ℚ) : ℚ :=
  if (sortSamples l).length % 2 = 1 then
    (sortSamples l).getD ((sortSamples l).length / 2) 0
  else
    ((sortSamples l).getD ((sortSamples l).length / 2 - 1) 0
      + (sortSamples l).getD ((sortSamples l).length / 2) 0) / 2

/-- Embeds `np.min` of a sample array: the least element. -/
def npMin : List ℚ → ℚ
  | [] => 0
  | x :: xs => xs.foldl min x

/-- Embeds `np.max` of a sample array: the greatest element. -/
def npMax : List ℚ → ℚ
  | [] => 0
  | x :: xs => xs.foldl max x

/-- Embeds `np.mean`: arithmetic mean of the samples. -/
def npMean (l : List ℚ) : ℚ :=
  l.sum / l.length

/-- Population variance, the square of `np.std`:
mean of the squared deviations from the mean. -/
def npVariance (l : List ℚ) : ℚ :=
  ((l.map (fun x => (x - npMean l) ^ 2)).sum) / l.length

/-- Embeds `np.std`: square root of the population variance. The float square root
is embedded as the rational square-root approximation `Rat.sqrt`, which
agrees with it on sign and on being zero (all the spec asserts about it). -/
def npStd (l : List ℚ) : ℚ :=
  Rat.sqrt (npVariance l)

/-- The statistics dictionary `run_infer_task` returns for the collected
`inference_times`: numpy statistics, standard deviation zeroed for a single
sample, and `InferenceMsFirst` from `inference_times[0]`. -/
def runInferStats (times : List ℚ) : PhaseStats :=
  { median := npMedian times
    min := npMin times
    max := npMax times
    average := npMean times
    stdDev := if 1 < times.length then npStd times else 0
    first := times.getD 0 0 }

/-- The statistics dictionary `run_load_task` returns for the one measured
load time: every `LoadMs*` key carries that time and the deviation is zero. -/
def runLoadStats (loadTimeMs : ℚ) : PhaseStats :=
  { median := loadTimeMs
    min := loadTimeMs
    max := loadTimeMs
    average := loadTimeMs
    stdDev := 0
    first := loadTimeMs }

/-! ## Agent supervisor (src/worker/worker_agent.py)

The modules `core.constants` and `core.redis_client` are imported by the
agent but are not part of the source tree; their contributions are modelled
from the spec where noted. -/

/-- Modelled from the spec: `core.constants.WORKER_STATUS_ACTIVE` is not in
the source tree; the spec names the worker status values `active`/`busy`. -/
def WORKER_STATUS_ACTIVE : String := "active"

/-- Modelled from the spec: `core.constants.WORKER_STATUS_BUSY`, see
`WORKER_STATUS_ACTIVE`. -/
def WORKER_STATUS_BUSY : String := "busy"

/-- Modelled from the spec: `core.constants.RESULT_STATUS_COMPLETE` is not in
the source tree; the spec gives `status ∈ {Complete, Failed}`. -/
def RESULT_STATUS_COMPLETE : String := "Complete"

/-- Modelled from the spec: `core.constants.RESULT_STATUS_FAILED`, see
`RESULT_STATUS_COMPLETE`. -/
def RESULT_STATUS_FAILED : String := "Failed"

/-- Python whitespace characters stripped by `str.strip()` (ASCII range). -/
def isPyWhitespace (c : Char) : Bool :=
  c == ' ' || c == '\t' || c == '\n' || c == '\r' || c == '\x0b' || c == '\x0c'

/-- Embeds `str.strip()`: drop leading and trailing whitespace. -/
def pyStrip (s : String) : String :=
  String.mk (((s.data.dropWhile isPyWhitespace).reverse.dropWhile isPyWhitespace).reverse)

/-- Observable outcome of one measurement-child subprocess together with the
monitor thread results: exit code, decoded stderr (empty string models empty
stderr bytes), parsed stdout metrics with the JSON decode error message when
parsing fails, peak resident set in bytes and mean CPU percent. -/
structure ChildRun where
  exitCode : Nat := 0
  stderrText : String := ""
  stdoutMetrics : Option PhaseStats := none
  jsonErrorMsg : String := ""
  peakRamBytes : Nat := 0
  avgCpuPercent : ℚ := 0

/-- Embeds `WorkerAgent._run_benchmark_task`: a non-zero exit raises
`RuntimeError("Benchmark task failed: " + stderr.decode().strip())`
(or `Unknown error` for empty stderr); unparseable stdout raises
`Failed to parse task output: ...`; otherwise the metrics are returned with
the peak RSS converted to MiB and the mean CPU percent. -/
def runBenchmarkTask (c : ChildRun) : Except String (PhaseStats × ℚ × ℚ) :=
  if c.exitCode ≠ 0 then
    .error ("Benchmark task failed: " ++
      (if c.stderrText = "" then "Unknown error" else pyStrip c.stderrText))
  else
    match c.stdoutMetrics with
    | none => .error ("Failed to parse task output: " ++ c.jsonErrorMsg)
    | some m => .ok (m, ((c.peakRamBytes : ℚ) / 2 ^ 20, c.avgCpuPercent))

/-- A successfully downloaded model artifact: its basename and size. -/
structure DownloadedModel where
  fileName : String := ""
  fileSize : Nat := 0

/-- Environment one `execute_benchmark_job` call runs in: the download
outcome (the error message of the raised exception on failure) and the two
measurement children it would spawn. -/
structure ExecEnv where
  downloadResult : Except String DownloadedModel := .error ""
  loadChild : ChildRun := {}
  inferChild : ChildRun := {}

/-- The result record `execute_benchmark_job` returns (the fields the claims
inspect; `None`-valued optional fields model absent keys, so the `LoadMs*`
and `InferenceMs*` metric groups are `Option`s that are `none` exactly when
the failure dictionary omits them). -/
structure ResultRecord where
  jobId : String
  campaignId : Option String
  workerId : Option String
  status : String
  remark : Option String
  fileName : String
  fileSize : Nat
  computeUnits : String
  loadMetrics : Option PhaseStats
  peakLoadRamUsage : Option ℚ
  averageLoadCpuPercent : Option ℚ
  inferMetrics : Option PhaseStats
  peakInferenceRamUsage : Option ℚ
  averageInferenceCpuPercent : Option ℚ

/-- The failure dictionary of `execute_benchmark_job` (its `except` branch):
status Failed, the exception text as remark, empty file fields and no
benchmark-metric keys. -/
def failedResult (workerId : Option String) (job : JobInfo) (computeUnit msg : String) :
    ResultRecord :=
  { jobId := job.jobId
    campaignId := job.campaignId
    workerId := workerId
    status := RESULT_STATUS_FAILED
    remark := some msg
    fileName := ""
    fileSize := 0
    computeUnits := computeUnit
    loadMetrics := none
    peakLoadRamUsage := none
    averageLoadCpuPercent := none
    inferMetrics := none
    peakInferenceRamUsage := none
    averageInferenceCpuPercent := none }

/-- Embeds `WorkerAgent.execute_benchmark_job`: set status busy; download; run the
load child then the infer child; merge a Complete record, or a Failed record
from any raised exception; set status active. Returns the produced record
together with the status updates issued, in order. -/
def executeBenchmarkJob (workerId : Option String) (job : JobInfo) (env : ExecEnv) :
    ResultRecord × List String :=
  let computeUnit := job.computeUnit.getD "CPU"
  let record :=
    match env.downloadResult with
    | .error e => failedResult workerId job computeUnit e
    | .ok dm =>
      match runBenchmarkTask env.loadChild with
      | .error e => failedResult workerId job computeUnit e
      | .ok (loadM, peakLoad, cpuLoad) =>
        match runBenchmarkTask env.inferChild with
        | .error e => failedResult workerId job computeUnit e
        | .ok (inferM, peakInfer, cpuInfer) =>
          { jobId := job.jobId
            campaignId := job.campaignId
            workerId := workerId
            status := RESULT_STATUS_COMPLETE
            remark := none
            fileName := dm.fileName
            fileSize := dm.fileSize
            computeUnits := computeUnit
            loadMetrics := some loadM
            peakLoadRamUsage := some peakLoad
            averageLoadCpuPercent := some cpuLoad
            inferMetrics := some inferM
            peakInferenceRamUsage := some peakInfer
            averageInferenceCpuPercent := some cpuInfer }
  (record, [WORKER_STATUS_BUSY, WORKER_STATUS_ACTIVE])

/-- One iteration of `start_job_loop` after a job id has been popped: when
`get_job_details` fails the id is dropped with a warning and nothing is
published; otherwise the job is executed and its single result published
(`publish_result` pushes onto the results queue, modelled from the spec as
appending the record). Returns the list of records pushed for this id. -/
def processPoppedJob (workerId : Option String)
    (fetched : Option (JobInfo × ExecEnv)) : List ResultRecord :=
  match fetched with
  | none => []
  | some (job, env) => [(executeBenchmarkJob workerId job env).1]

/-! ## Helper lemmas -/

/-- Appending on the left of a string is injective on the right argument. -/
lemma string_append_left_cancel (a : String) {b c : String} (h : a ++ b = a ++ c) :
    b = c := by
  apply String.ext
  have hd := congrArg String.data h
  simp only [String.data_append] at hd
  exact List.append_cancel_left hd

lemma mem_appendIfMissing_of_mem {c u : String} {units : List String}
    (h : c ∈ units) : c ∈ appendIfMissing u units := by
  unfold appendIfMissing
  split
  · exact h
  · exact List.mem_append_left _ h

lemma eq_or_mem_of_mem_appendIfMissing {c u : String} {units : List String}
    (h : c ∈ appendIfMissing u units) : c = u ∨ c ∈ units := by
  unfold appendIfMissing at h
  split at h
  · exact .inr h
  · rcases List.mem_append.1 h with h | h
    · exact .inr h
    · exact .inl (List.mem_singleton.1 h)

lemma mem_addCoreMLUnits_of_mem {c : String} {env : ProbeEnv} {units : List String}
    (h : c ∈ units) : c ∈ addCoreMLUnits env units := by
  unfold addCoreMLUnits
  split
  · exact mem_appendIfMissing_of_mem (mem_appendIfMissing_of_mem h)
  · exact h

lemma of_mem_addCoreMLUnits {c : String} {env : ProbeEnv} {units : List String}
    (h : c ∈ addCoreMLUnits env units) :
    c ∈ units ∨ c = "GPU (CoreML)" ∨ c = "Neural Engine (CoreML)" := by
  unfold addCoreMLUnits at h
  split at h
  · rcases eq_or_mem_of_mem_appendIfMissing h with h | h
    · exact .inr (.inr h)
    · rcases eq_or_mem_of_mem_appendIfMissing h with h | h
      · exact .inr (.inl h)
      · exact .inl h
  · exact .inl h

lemma of_mem_onnxUnits {c : String} {env : ProbeEnv} (h : c ∈ onnxUnits env) :
    c ∈ ["CPU (ONNX)", "GPU (ONNX)", "DirectML (ONNX)", "OpenVINO (ONNX)", "CPU"] := by
  unfold onnxUnits at h
  split at h
  · simp only [List.append_assoc, List.mem_append, List.mem_singleton] at h
    rcases h with h | h | h | h
    · simp [h]
    all_goals
      split at h <;> simp_all
  · simp_all

lemma mem_getComputeUnits_master {c : String} {env : ProbeEnv}
    (h : c ∈ getComputeUnits env) : c ∈ masterCapabilities := by
  unfold getComputeUnits at h
  rcases of_mem_addCoreMLUnits h with h | h | h
  · have := of_mem_onnxUnits h
    simp only [List.mem_cons, List.not_mem_nil, or_false] at this
    rcases this with h | h | h | h | h <;> simp [masterCapabilities, h]
  · simp [masterCapabilities, h]
  · simp [masterCapabilities, h]

lemma onnxUnits_of_unavailable {env : ProbeEnv} (h : env.onnxAvailable = false) :
    onnxUnits env = ["CPU"] := by
  unfold onnxUnits
  rw [h]
  simp

/-! ## Claim theorems -/

/-- C4: `determine_queues` returns exactly the personal queue when
`worker_id` is set, else exactly one capability queue when `compute_unit`
is set, else the empty list. -/
theorem determineQueues_spec (job : JobInfo) :
    (∀ w, job.workerId = some w → w ≠ "" → determineQueues job = ["jobs:" ++ w])
    ∧ (isTruthy job.workerId = false →
        ∀ cu, job.computeUnit = some cu → cu ≠ "" →
          determineQueues job = ["jobs:capability:" ++ normalizeComputeUnit cu])
    ∧ (isTruthy job.workerId = false → isTruthy job.computeUnit = false →
        determineQueues job = []) := by
  refine ⟨?_, ?_, ?_⟩
  · intro w hw hne
    unfold determineQueues
    rw [hw]
    simp [isTruthy, hne]
  · intro hfw cu hcu hne
    unfold determineQueues
    rw [hfw, hcu]
    simp [isTruthy, hne]
  · intro hfw hfc
    unfold determineQueues
    rw [hfw, hfc]
    simp

/-- Witness for C4 at a concrete pinned job, a capability job and an empty
job. -/
theorem determineQueues_spec_witness :
    (({ workerId := some "W1" } : JobInfo).workerId = some "W1" ∧ "W1" ≠ ""
      ∧ determineQueues { workerId := some "W1" } = ["jobs:" ++ "W1"])
    ∧ (isTruthy ({ computeUnit := some "CPU (ONNX)" } : JobInfo).workerId = false
      ∧ determineQueues { computeUnit := some "CPU (ONNX)" }
          = ["jobs:capability:" ++ normalizeComputeUnit "CPU (ONNX)"])
    ∧ determineQueues ({} : JobInfo) = [] :=
  ⟨⟨rfl, by decide, (determineQueues_spec { workerId := some "W1" }).1 "W1" rfl (by decide)⟩,
   ⟨rfl, (determineQueues_spec { computeUnit := some "CPU (ONNX)" }).2.1 rfl
      "CPU (ONNX)" rfl (by decide)⟩,
   (determineQueues_spec {}).2.2 rfl rfl⟩

/-- C5: over the set of capability strings the device probe can emit,
normalisation is idempotent and injective; the first conjunct bounds that
emitted set. -/
theorem normalizeComputeUnit_laws :
    (∀ env : ProbeEnv, ∀ c ∈ getComputeUnits env, c ∈ masterCapabilities)
    ∧ (∀ c ∈ masterCapabilities,
        normalizeComputeUnit (normalizeComputeUnit c) = normalizeComputeUnit c)
    ∧ (∀ c₁ ∈ masterCapabilities, ∀ c₂ ∈ masterCapabilities,
        normalizeComputeUnit c₁ = normalizeComputeUnit c₂ → c₁ = c₂) := by
  refine ⟨fun env c h => mem_getComputeUnits_master h, ?_, ?_⟩
  · decide
  · decide

/-- Witness for C5 at the concrete capability CPU (ONNX) in a default
environment. -/
theorem normalizeComputeUnit_laws_witness :
    "CPU (ONNX)" ∈ getComputeUnits { onnxAvailable := true }
    ∧ "CPU (ONNX)" ∈ masterCapabilities
    ∧ normalizeComputeUnit (normalizeComputeUnit "CPU (ONNX)")
        = normalizeComputeUnit "CPU (ONNX)"
    ∧ ("GPU (CoreML)" ∈ masterCapabilities →
        normalizeComputeUnit "CPU (ONNX)" = normalizeComputeUnit "GPU (CoreML)" →
        "CPU (ONNX)" = "GPU (CoreML)") :=
  ⟨by decide,
   normalizeComputeUnit_laws.1 { onnxAvailable := true } "CPU (ONNX)" (by decide),
   normalizeComputeUnit_laws.2.1 "CPU (ONNX)" (by decide),
   fun hm he => normalizeComputeUnit_laws.2.2 "CPU (ONNX)" (by decide) "GPU (CoreML)" hm he⟩

/-- C7: the single-run load phase emits the one measured time in every
`LoadMs*` field and a zero standard deviation. -/
theorem runLoadStats_single_run (t : ℚ) :
    (runLoadStats t).median = t ∧ (runLoadStats t).min = t
    ∧ (runLoadStats t).max = t ∧ (runLoadStats t).average = t
    ∧ (runLoadStats t).first = t ∧ (runLoadStats t).stdDev = 0 :=
  ⟨rfl, rfl, rfl, rfl, rfl, rfl⟩

/-- C2 counterexample: for the requested compute unit `GPU` the engine falls
into its CPU fallback branch, while the claimed mapping prescribes
[CUDA, CPU]; with both providers advertised the two lists differ. -/
theorem getProviders_deviates_from_claimC2 :
    getProviders "GPU" ["CUDAExecutionProvider", "CPUExecutionProvider"]
      = ["CPUExecutionProvider"]
    ∧ (specC2ProviderBase "GPU").filter
        (fun p => List.contains ["CUDAExecutionProvider", "CPUExecutionProvider"] p)
      = ["CUDAExecutionProvider", "CPUExecutionProvider"]
    ∧ getProviders "GPU" ["CUDAExecutionProvider", "CPUExecutionProvider"]
      ≠ (specC2ProviderBase "GPU").filter
        (fun p => List.contains ["CUDAExecutionProvider", "CPUExecutionProvider"] p) := by
  refine ⟨by decide, by decide, by decide⟩

/-- C2 amended: the provider list is the base mapping CPU to [CPU], CUDA to
[CUDA, CPU], DML to [DML, CPU], OpenVINO-prefixed to [OpenVINO, CPU], and
anything else (including GPU and DirectML) to [CPU], intersected with the
runtime-advertised providers preserving the base order. -/
theorem getProviders_spec (computeUnit : String) (avail : List String) :
    getProviders computeUnit avail
      = (onnxProviderBase computeUnit).filter (fun p => avail.contains p)
    ∧ (getProviders computeUnit avail).Sublist (onnxProviderBase computeUnit)
    ∧ ∀ p ∈ getProviders computeUnit avail, p ∈ avail := by
  refine ⟨rfl, List.filter_sublist _, ?_⟩
  intro p hp
  have h := List.of_mem_filter hp
  exact List.elem_iff.1 h

/-- Witness for C2 amended at CUDA with only the CPU provider advertised. -/
theorem getProviders_spec_witness :
    getProviders "CUDA" ["CPUExecutionProvider"]
      = (onnxProviderBase "CUDA").filter
          (fun p => List.contains ["CPUExecutionProvider"] p)
    ∧ (getProviders "CUDA" ["CPUExecutionProvider"]).Sublist (onnxProviderBase "CUDA")
    ∧ ("CPUExecutionProvider" ∈ getProviders "CUDA" ["CPUExecutionProvider"] →
        "CPUExecutionProvider" ∈ ["CPUExecutionProvider"]) :=
  ⟨(getProviders_spec "CUDA" ["CPUExecutionProvider"]).1,
   (getProviders_spec "CUDA" ["CPUExecutionProvider"]).2.1,
   fun h => (getProviders_spec "CUDA" ["CPUExecutionProvider"]).2.2 _ h⟩

/-- C3 counterexample: `get_worker_queue_priority` performs no
deduplication — a repeated capability yields a repeated queue key. -/
theorem getWorkerQueuePriority_keeps_duplicates :
    getWorkerQueuePriority "w1" ["CPU (ONNX)", "CPU (ONNX)"]
      = ["jobs:w1", "jobs:capability:cpu_onnx", "jobs:capability:cpu_onnx"]
    ∧ ¬ (getWorkerQueuePriority "w1" ["CPU (ONNX)", "CPU (ONNX)"]).Nodup := by
  refine ⟨by decide, by decide⟩

/-- C3 amended: the queue priority list is the personal queue followed by the
capability queues in the order of the capability list, with no
deduplication; it is duplicate-free whenever the normalised capabilities are
pairwise distinct and the personal queue differs from every capability
queue. -/
theorem getWorkerQueuePriority_spec (w : String) (caps : List String)
    (hinj : (caps.map normalizeComputeUnit).Nodup)
    (hpersonal : ∀ c ∈ caps,
      "jobs:" ++ w ≠ "jobs:capability:" ++ normalizeComputeUnit c) :
    getWorkerQueuePriority w caps
      = ("jobs:" ++ w) :: caps.map (fun c => "jobs:capability:" ++ normalizeComputeUnit c)
    ∧ (getWorkerQueuePriority w caps).Nodup := by
  refine ⟨rfl, ?_⟩
  unfold getWorkerQueuePriority
  refine List.nodup_cons.2 ⟨?_, ?_⟩
  · intro hmem
    rcases List.mem_map.1 hmem with ⟨c, hc, heq⟩
    exact hpersonal c hc heq.symm
  · have : (caps.map fun c => "jobs:capability:" ++ normalizeComputeUnit c)
        = (caps.map normalizeComputeUnit).map (fun k => "jobs:capability:" ++ k) := by
      rw [List.map_map]
      rfl
    rw [this]
    exact hinj.map (fun k₁ k₂ h => string_append_left_cancel _ h)

/-- Witness for C3 amended at two distinct capabilities. -/
theorem getWorkerQueuePriority_spec_witness :
    ((["CPU (ONNX)", "GPU (CoreML)"].map normalizeComputeUnit).Nodup)
    ∧ (getWorkerQueuePriority "w1" ["CPU (ONNX)", "GPU (CoreML)"]
        = ("jobs:" ++ "w1") ::
            ["CPU (ONNX)", "GPU (CoreML)"].map
              (fun c => "jobs:capability:" ++ normalizeComputeUnit c)
      ∧ (getWorkerQueuePriority "w1" ["CPU (ONNX)", "GPU (CoreML)"]).Nodup) :=
  ⟨by decide,
   getWorkerQueuePriority_spec "w1" ["CPU (ONNX)", "GPU (CoreML)"]
     (by decide) (by decide)⟩

/-- C9 counterexample: on a machine with 2^34 bytes of memory the emitted
`Ram` field is the string 16, not an integer value. -/
theorem deviceRamField_not_integer :
    deviceRamField (2 ^ 34) = PyValue.str "16"
    ∧ (deviceRamField (2 ^ 34)).isInt = false := by
  refine ⟨by decide, by decide⟩

/-- C9 amended: the `Ram` field always carries the decimal string
representation of the truncated GiB count, never an integer value. -/
theorem deviceRamField_spec (totalBytes : Nat) :
    deviceRamField totalBytes = PyValue.str (toString (totalBytes / 2 ^ 30))
    ∧ (deviceRamField totalBytes).isInt = false := by
  have h : (1024 : Nat) ^ 3 = 2 ^ 30 := by norm_num
  unfold deviceRamField
  rw [h]
  exact ⟨rfl, rfl⟩

/-- C10: when onnxruntime cannot be imported the probe emits the bare
capability CPU (and never CPU (ONNX)), so the queue priority list contains
jobs:capability:cpu and no capability maps to jobs:capability:cpu_onnx. -/
theorem bare_cpu_without_onnxruntime (env : ProbeEnv) (w : String)
    (h : env.onnxAvailable = false) :
    "CPU" ∈ getComputeUnits env
    ∧ "CPU (ONNX)" ∉ getComputeUnits env
    ∧ "jobs:capability:cpu" ∈ getWorkerQueuePriority w (getComputeUnits env)
    ∧ ∀ c ∈ getComputeUnits env,
        "jobs:capability:" ++ normalizeComputeUnit c ≠ "jobs:capability:cpu_onnx" := by
  have hunits : onnxUnits env = ["CPU"] := onnxUnits_of_unavailable h
  have hmem : "CPU" ∈ getComputeUnits env := by
    unfold getComputeUnits
    rw [hunits]
    exact mem_addCoreMLUnits_of_mem (by decide)
  have hrange : ∀ c ∈ getComputeUnits env,
      c = "CPU" ∨ c = "GPU (CoreML)" ∨ c = "Neural Engine (CoreML)" := by
    intro c hc
    unfold getComputeUnits at hc
    rw [hunits] at hc
    rcases of_mem_addCoreMLUnits hc with hc | hc | hc
    · exact .inl (List.mem_singleton.1 hc)
    · exact .inr (.inl hc)
    · exact .inr (.inr hc)
  refine ⟨hmem, ?_, ?_, ?_⟩
  · intro hc
    rcases hrange _ hc with hc | hc | hc <;> simp at hc
  · unfold getWorkerQueuePriority
    refine List.mem_cons_of_mem _ ?_
    have : "jobs:capability:cpu"
        = "jobs:capability:" ++ normalizeComputeUnit "CPU" := by decide
    rw [this]
    exact List.mem_map_of_mem _ hmem
  · intro c hc
    rcases hrange _ hc with hc | hc | hc <;> subst hc <;> decide

/-- Witness for C10 in a concrete environment without onnxruntime. -/
theorem bare_cpu_without_onnxruntime_witness :
    (({ onnxAvailable := false } : ProbeEnv).onnxAvailable = false)
    ∧ "CPU" ∈ getComputeUnits { onnxAvailable := false }
    ∧ "CPU (ONNX)" ∉ getComputeUnits { onnxAvailable := false }
    ∧ "jobs:capability:cpu"
        ∈ getWorkerQueuePriority "w1" (getComputeUnits { onnxAvailable := false })
    ∧ "jobs:capability:" ++ normalizeComputeUnit "CPU" ≠ "jobs:capability:cpu_onnx" :=
  have h := bare_cpu_without_onnxruntime { onnxAvailable := false } "w1" rfl
  ⟨rfl, h.1, h.2.1, h.2.2.1, h.2.2.2 "CPU" h.1⟩

lemma executeBenchmarkJob_status (workerId : Option String) (job : JobInfo)
    (env : ExecEnv) :
    (executeBenchmarkJob workerId job env).1.status = RESULT_STATUS_COMPLETE
    ∨ (executeBenchmarkJob workerId job env).1.status = RESULT_STATUS_FAILED := by
  unfold executeBenchmarkJob
  cases env.downloadResult with
  | error e => exact .inr rfl
  | ok dm =>
    cases runBenchmarkTask env.loadChild with
    | error e => exact .inr rfl
    | ok lres =>
      cases runBenchmarkTask env.inferChild with
      | error e => exact .inr rfl
      | ok ires => exact .inl rfl

/-- C1 counterexample: a popped job id whose details fetch fails is dropped
without any result push, so not every consumed id yields a push. -/
theorem processPoppedJob_drops_unknown_id :
    processPoppedJob (some "W1") none = []
    ∧ (processPoppedJob (some "W1") none).length ≠ 1 :=
  ⟨rfl, by simp [processPoppedJob]⟩

/-- C1 amended: every popped job id whose details fetch succeeds produces
exactly one result push, with status Complete or Failed, on every success
and failure path of the execution; an id whose details fetch fails is
dropped with no push. -/
theorem processPoppedJob_spec (workerId : Option String)
    (fetched : Option (JobInfo × ExecEnv)) :
    (∀ job env, fetched = some (job, env) →
      processPoppedJob workerId fetched = [(executeBenchmarkJob workerId job env).1]
      ∧ ((executeBenchmarkJob workerId job env).1.status = RESULT_STATUS_COMPLETE
        ∨ (executeBenchmarkJob workerId job env).1.status = RESULT_STATUS_FAILED))
    ∧ (fetched = none → processPoppedJob workerId fetched = []) := by
  refine ⟨?_, ?_⟩
  · intro job env hf
    subst hf
    exact ⟨rfl, executeBenchmarkJob_status _ _ _⟩
  · intro hf
    subst hf
    rfl

/-- Witness for C1 amended at a concrete fetched job whose download fails. -/
theorem processPoppedJob_spec_witness :
    processPoppedJob none
        (some ({ jobId := "j1" }, { downloadResult := .error "dl failed" }))
      = [(executeBenchmarkJob none { jobId := "j1" }
          { downloadResult := .error "dl failed" }).1]
    ∧ ((executeBenchmarkJob none { jobId := "j1" }
          { downloadResult := .error "dl failed" }).1.status = RESULT_STATUS_COMPLETE
      ∨ (executeBenchmarkJob none { jobId := "j1" }
          { downloadResult := .error "dl failed" }).1.status = RESULT_STATUS_FAILED) :=
  (processPoppedJob_spec none
      (some ({ jobId := "j1" }, { downloadResult := .error "dl failed" }))).1
    { jobId := "j1" } { downloadResult := .error "dl failed" } rfl

/-- C8 counterexample: when the load child exits non-zero with stderr
`boom`, the Failed remark is `Benchmark task failed: boom`, not the raw
stderr text. -/
theorem failed_remark_not_raw_stderr :
    ((executeBenchmarkJob none { jobId := "j1" }
        { downloadResult := .ok { fileName := "m.onnx", fileSize := 1 },
          loadChild := { exitCode := 1, stderrText := "boom" } }).1).status
      = RESULT_STATUS_FAILED
    ∧ ((executeBenchmarkJob none { jobId := "j1" }
        { downloadResult := .ok { fileName := "m.onnx", fileSize := 1 },
          loadChild := { exitCode := 1, stderrText := "boom" } }).1).remark
      = some "Benchmark task failed: boom"
    ∧ ((executeBenchmarkJob none { jobId := "j1" }
        { downloadResult := .ok { fileName := "m.onnx", fileSize := 1 },
          loadChild := { exitCode := 1, stderrText := "boom" } }).1).remark
      ≠ some "boom" := by
  refine ⟨by decide, by decide, by decide⟩

/-- C8 amended: whenever a measurement child exits non-zero — the load
child, or the infer child after a successful load — the job yields the
Failed result whose remark is the stripped stderr text prefixed with
`Benchmark task failed: ` (or `Benchmark task failed: Unknown error` when
stderr is empty), with empty file fields, every benchmark-metric key
absent, and the status updates busy then active (active afterwards). -/
theorem measurement_child_failure_spec (workerId : Option String) (job : JobInfo)
    (env : ExecEnv) (dm : DownloadedModel) (c : ChildRun)
    (hdl : env.downloadResult = .ok dm)
    (hexit : c.exitCode ≠ 0)
    (hphase : c = env.loadChild
      ∨ (env.loadChild.exitCode = 0 ∧ env.loadChild.stdoutMetrics.isSome
          ∧ c = env.inferChild)) :
    (executeBenchmarkJob workerId job env).1.status = RESULT_STATUS_FAILED
    ∧ (executeBenchmarkJob workerId job env).1.remark
        = some ("Benchmark task failed: "
            ++ (if c.stderrText = "" then "Unknown error" else pyStrip c.stderrText))
    ∧ (executeBenchmarkJob workerId job env).1.fileName = ""
    ∧ (executeBenchmarkJob workerId job env).1.fileSize = 0
    ∧ (executeBenchmarkJob workerId job env).1.loadMetrics = none
    ∧ (executeBenchmarkJob workerId job env).1.peakLoadRamUsage = none
    ∧ (executeBenchmarkJob workerId job env).1.averageLoadCpuPercent = none
    ∧ (executeBenchmarkJob workerId job env).1.inferMetrics = none
    ∧ (executeBenchmarkJob workerId job env).1.peakInferenceRamUsage = none
    ∧ (executeBenchmarkJob workerId job env).1.averageInferenceCpuPercent = none
    ∧ (executeBenchmarkJob workerId job env).2
        = [WORKER_STATUS_BUSY, WORKER_STATUS_ACTIVE] := by
  have hmsg : runBenchmarkTask c
      = .error ("Benchmark task failed: "
          ++ (if c.stderrText = "" then "Unknown error" else pyStrip c.stderrText)) := by
    unfold runBenchmarkTask
    rw [if_pos hexit]
  rcases hphase with hc | ⟨hz, hm, hc⟩
  · subst hc
    unfold executeBenchmarkJob
    rw [hdl, hmsg]
    exact ⟨rfl, rfl, rfl, rfl, rfl, rfl, rfl, rfl, rfl, rfl, rfl⟩
  · rcases Option.isSome_iff_exists.1 hm with ⟨m, hm'⟩
    have hload : runBenchmarkTask env.loadChild
        = .ok (m, ((env.loadChild.peakRamBytes : ℚ) / 2 ^ 20,
            env.loadChild.avgCpuPercent)) := by
      unfold runBenchmarkTask
      rw [if_neg (show ¬ env.loadChild.exitCode ≠ 0 from fun h => h hz), hm']
    subst hc
    unfold executeBenchmarkJob
    rw [hdl, hload, hmsg]
    exact ⟨rfl, rfl, rfl, rfl, rfl, rfl, rfl, rfl, rfl, rfl, rfl⟩

/-- Witness for C8 amended at a concrete infer child failing with empty
stderr after a successful load. -/
theorem measurement_child_failure_spec_witness :
    (({ downloadResult := .ok { fileName := "m.onnx", fileSize := 9 },
        loadChild := { exitCode := 0, stdoutMetrics := some (PhaseStats.mk 1 1 1 1 0 1) },
        inferChild := { exitCode := 3 } } : ExecEnv).downloadResult
      = .ok { fileName := "m.onnx", fileSize := 9 })
    ∧ (({ exitCode := 3 } : ChildRun).exitCode ≠ 0)
    ∧ (executeBenchmarkJob (some "W1") { jobId := "j2" }
        { downloadResult := .ok { fileName := "m.onnx", fileSize := 9 },
          loadChild := { exitCode := 0, stdoutMetrics := some (PhaseStats.mk 1 1 1 1 0 1) },
          inferChild := { exitCode := 3 } }).1.status
      = RESULT_STATUS_FAILED
    ∧ (executeBenchmarkJob (some "W1") { jobId := "j2" }
        { downloadResult := .ok { fileName := "m.onnx", fileSize := 9 },
          loadChild := { exitCode := 0, stdoutMetrics := some (PhaseStats.mk 1 1 1 1 0 1) },
          inferChild := { exitCode := 3 } }).1.remark
      = some ("Benchmark task failed: "
          ++ (if ({ exitCode := 3 } : ChildRun).stderrText = "" then "Unknown error"
              else pyStrip ({ exitCode := 3 } : ChildRun).stderrText))
    ∧ (executeBenchmarkJob (some "W1") { jobId := "j2" }
        { downloadResult := .ok { fileName := "m.onnx", fileSize := 9 },
          loadChild := { exitCode := 0, stdoutMetrics := some (PhaseStats.mk 1 1 1 1 0 1) },
          inferChild := { exitCode := 3 } }).2
      = [WORKER_STATUS_BUSY, WORKER_STATUS_ACTIVE] :=
  have h := measurement_child_failure_spec (some "W1") { jobId := "j2" }
    { downloadResult := .ok { fileName := "m.onnx", fileSize := 9 },
      loadChild := { exitCode := 0, stdoutMetrics := some (PhaseStats.mk 1 1 1 1 0 1) },
      inferChild := { exitCode := 3 } }
    { fileName := "m.onnx", fileSize := 9 } { exitCode := 3 }
    rfl (by decide) (Or.inr ⟨rfl, rfl, rfl⟩)
  ⟨rfl, by decide, h.1, h.2.1, h.2.2.2.2.2.2.2.2.2.2⟩

/-! ## Statistics lemmas for C6 -/

lemma mem_insertSorted (x a : ℚ) (l : List ℚ) :
    a ∈ insertSorted x l ↔ a = x ∨ a ∈ l := by
  induction l with
  | nil => simp [insertSorted]
  | cons y ys ih =>
    by_cases h : x ≤ y
    · simp [insertSorted, h]
    · simp only [insertSorted, if_neg h, List.mem_cons, ih]
      tauto

lemma mem_sortSamples (a : ℚ) (l : List ℚ) : a ∈ sortSamples l ↔ a ∈ l := by
  induction l with
  | nil => simp [sortSamples]
  | cons x xs ih => simp [sortSamples, mem_insertSorted, ih]

lemma length_insertSorted (x : ℚ) (l : List ℚ) :
    (insertSorted x l).length = l.length + 1 := by
  induction l with
  | nil => rfl
  | cons y ys ih =>
    by_cases h : x ≤ y <;> simp [insertSorted, h, ih]

lemma length_sortSamples (l : List ℚ) : (sortSamples l).length = l.length := by
  induction l with
  | nil => rfl
  | cons x xs ih => simp [sortSamples, length_insertSorted, ih]

lemma getD_mem_of_lt {l : List ℚ} {i : Nat} (h : i < l.length) : l.getD i 0 ∈ l := by
  induction l generalizing i with
  | nil => simp at h
  | cons x xs ih =>
    cases i with
    | zero => simp
    | succ n =>
      simp only [List.getD_cons_succ]
      exact List.mem_cons_of_mem _ (ih (by simpa using h))

lemma foldl_min_le_init (l : List ℚ) (a : ℚ) : l.foldl min a ≤ a := by
  induction l generalizing a with
  | nil => simp
  | cons x xs ih =>
    calc (x :: xs).foldl min a = xs.foldl min (min a x) := rfl
    _ ≤ min a x := ih _
    _ ≤ a := min_le_left _ _

lemma foldl_min_le_mem {x : ℚ} (l : List ℚ) (a : ℚ) (hx : x ∈ l) :
    l.foldl min a ≤ x := by
  induction l generalizing a with
  | nil => simp at hx
  | cons y ys ih =>
    rcases List.mem_cons.1 hx with h | h
    · subst h
      calc (x :: ys).foldl min a = ys.foldl min (min a x) := rfl
      _ ≤ min a x := foldl_min_le_init _ _
      _ ≤ x := min_le_right _ _
    · exact ih _ h

lemma init_le_foldl_max (l : List ℚ) (a : ℚ) : a ≤ l.foldl max a := by
  induction l generalizing a with
  | nil => simp
  | cons x xs ih =>
    calc a ≤ max a x := le_max_left _ _
    _ ≤ xs.foldl max (max a x) := ih _
    _ = (x :: xs).foldl max a := rfl

lemma mem_le_foldl_max {x : ℚ} (l : List ℚ) (a : ℚ) (hx : x ∈ l) :
    x ≤ l.foldl max a := by
  induction l generalizing a with
  | nil => simp at hx
  | cons y ys ih =>
    rcases List.mem_cons.1 hx with h | h
    · subst h
      calc x ≤ max a x := le_max_right _ _
      _ ≤ ys.foldl max (max a x) := init_le_foldl_max _ _
      _ = (x :: ys).foldl max a := rfl
    · exact ih _ h

lemma npMin_le_mem {l : List ℚ} {x : ℚ} (hx : x ∈ l) : npMin l ≤ x := by
  cases l with
  | nil => simp at hx
  | cons y ys =>
    rcases List.mem_cons.1 hx with h | h
    · subst h
      exact foldl_min_le_init _ _
    · exact foldl_min_le_mem _ _ h

lemma mem_le_npMax {l : List ℚ} {x : ℚ} (hx : x ∈ l) : x ≤ npMax l := by
  cases l with
  | nil => simp at hx
  | cons y ys =>
    rcases List.mem_cons.1 hx with h | h
    · subst h
      exact init_le_foldl_max _ _
    · exact mem_le_foldl_max _ _ h

lemma npMin_le_npMedian {l : List ℚ} (hl : l ≠ []) : npMin l ≤ npMedian l := by
  have hlen : (sortSamples l).length = l.length := length_sortSamples l
  have hpos : 0 < l.length := List.length_pos.2 hl
  unfold npMedian
  by_cases h : (sortSamples l).length % 2 = 1
  · rw [if_pos h]
    apply npMin_le_mem
    rw [← mem_sortSamples]
    exact getD_mem_of_lt (by omega)
  · rw [if_neg h]
    have h1 : npMin l ≤ (sortSamples l).getD ((sortSamples l).length / 2 - 1) 0 := by
      apply npMin_le_mem
      rw [← mem_sortSamples]
      exact getD_mem_of_lt (by omega)
    have h2 : npMin l ≤ (sortSamples l).getD ((sortSamples l).length / 2) 0 := by
      apply npMin_le_mem
      rw [← mem_sortSamples]
      exact getD_mem_of_lt (by omega)
    linarith

lemma npMedian_le_npMax {l : List ℚ} (hl : l ≠ []) : npMedian l ≤ npMax l := by
  have hlen : (sortSamples l).length = l.length := length_sortSamples l
  have hpos : 0 < l.length := List.length_pos.2 hl
  unfold npMedian
  by_cases h : (sortSamples l).length % 2 = 1
  · rw [if_pos h]
    apply mem_le_npMax
    rw [← mem_sortSamples]
    exact getD_mem_of_lt (by omega)
  · rw [if_neg h]
    have h1 : (sortSamples l).getD ((sortSamples l).length / 2 - 1) 0 ≤ npMax l := by
      apply mem_le_npMax
      rw [← mem_sortSamples]
      exact getD_mem_of_lt (by omega)
    have h2 : (sortSamples l).getD ((sortSamples l).length / 2) 0 ≤ npMax l := by
      apply mem_le_npMax
      rw [← mem_sortSamples]
      exact getD_mem_of_lt (by omega)
    linarith

lemma length_pos_rat {l : List ℚ} (hl : l ≠ []) : (0 : ℚ) < l.length := by
  have := List.length_pos.2 hl
  exact_mod_cast this

lemma sum_of_all_eq {l : List ℚ} {c : ℚ} (h : ∀ x ∈ l, x = c) :
    l.sum = l.length * c := by
  induction l with
  | nil => simp
  | cons x xs ih =>
    simp only [List.sum_cons, List.length_cons]
    rw [h x (List.mem_cons_self _ _), ih (fun y hy => h y (List.mem_cons_of_mem _ hy))]
    push_cast
    ring

lemma npMean_of_all_eq {l : List ℚ} {c : ℚ} (hl : l ≠ []) (h : ∀ x ∈ l, x = c) :
    npMean l = c := by
  unfold npMean
  rw [sum_of_all_eq h]
  exact mul_div_cancel_left₀ c (ne_of_gt (length_pos_rat hl))

lemma sq_dev_sum_nonneg (l : List ℚ) (m : ℚ) :
    0 ≤ (l.map (fun x => (x - m) ^ 2)).sum := by
  apply List.sum_nonneg
  intro x hx
  rcases List.mem_map.1 hx with ⟨y, _, rfl⟩
  positivity

lemma npVariance_nonneg (l : List ℚ) : 0 ≤ npVariance l := by
  unfold npVariance
  apply div_nonneg (sq_dev_sum_nonneg _ _)
  positivity

lemma all_eq_mean_of_sq_sum_zero {l : List ℚ} {m : ℚ}
    (h : (l.map (fun x => (x - m) ^ 2)).sum = 0) : ∀ x ∈ l, x = m := by
  intro x hx
  have h0 : (x - m) ^ 2 = 0 := by
    apply List.all_zero_of_le_zero_le_of_sum_eq_zero ?_ h (List.mem_map_of_mem _ hx)
    intro y hy
    rcases List.mem_map.1 hy with ⟨z, _, rfl⟩
    positivity
  have hxm : x - m = 0 := sq_eq_zero_iff.1 h0
  linarith [sub_eq_zero.1 hxm]

lemma npVariance_eq_zero_iff {l : List ℚ} (hl : l ≠ []) :
    npVariance l = 0 ↔ ∀ x ∈ l, x = npMean l := by
  unfold npVariance
  have hn : ((l.length : ℚ)) ≠ 0 := ne_of_gt (length_pos_rat hl)
  rw [div_eq_zero_iff]
  constructor
  · rintro (h | h)
    · exact all_eq_mean_of_sq_sum_zero h
    · exact absurd h hn
  · intro h
    left
    apply List.sum_eq_zero
    intro y hy
    rcases List.mem_map.1 hy with ⟨z, hz, rfl⟩
    rw [h z hz]
    ring

lemma all_eq_iff_all_eq_mean {l : List ℚ} (hl : l ≠ []) :
    (∀ x ∈ l, ∀ y ∈ l, x = y) ↔ ∀ x ∈ l, x = npMean l := by
  constructor
  · intro h
    cases l with
    | nil => exact absurd rfl hl
    | cons c cs =>
      have hall : ∀ x ∈ c :: cs, x = c := fun x hx => h x hx c (List.mem_cons_self _ _)
      intro x hx
      rw [hall x hx, npMean_of_all_eq hl hall]
  · intro h x hx y hy
    rw [h x hx, h y hy]

lemma ratSqrt_eq_zero_iff {q : ℚ} (hq : 0 ≤ q) : Rat.sqrt q = 0 ↔ q = 0 := by
  unfold Rat.sqrt
  have hden : Nat.sqrt q.den ≠ 0 := fun h0 => q.den_nz (Nat.sqrt_eq_zero.1 h0)
  rw [Rat.mkRat_eq_zero hden]
  unfold Int.sqrt
  constructor
  · intro h
    have hnat : Nat.sqrt q.num.toNat = 0 := by exact_mod_cast h
    have htn : q.num.toNat = 0 := Nat.sqrt_eq_zero.1 hnat
    have hle : q.num ≤ 0 := Int.toNat_eq_zero.1 htn
    have hge : 0 ≤ q.num := Rat.num_nonneg.2 hq
    exact Rat.num_eq_zero.1 (le_antisymm hle hge)
  · intro h
    subst h
    simp

lemma npStd_eq_zero_iff {l : List ℚ} (hl : l ≠ []) :
    npStd l = 0 ↔ ∀ x ∈ l, ∀ y ∈ l, x = y := by
  unfold npStd
  rw [ratSqrt_eq_zero_iff (npVariance_nonneg l), npVariance_eq_zero_iff hl]
  exact (all_eq_iff_all_eq_mean hl).symm

/-- C6: for any non-empty sample list, the infer-task statistics satisfy
min ≤ median ≤ max, a non-negative standard deviation that vanishes exactly
when all samples are equal, and a first field equal to the first sample. -/
theorem runInferStats_laws (l : List ℚ) (hl : l ≠ []) :
    (runInferStats l).min ≤ (runInferStats l).median
    ∧ (runInferStats l).median ≤ (runInferStats l).max
    ∧ 0 ≤ (runInferStats l).stdDev
    ∧ ((runInferStats l).stdDev = 0 ↔ ∀ x ∈ l, ∀ y ∈ l, x = y)
    ∧ (runInferStats l).first = l.headD 0 := by
  refine ⟨npMin_le_npMedian hl, npMedian_le_npMax hl, ?_, ?_, ?_⟩
  · show 0 ≤ if 1 < l.length then npStd l else 0
    by_cases h : 1 < l.length
    · rw [if_pos h]
      exact Rat.sqrt_nonneg _
    · rw [if_neg h]
  · show (if 1 < l.length then npStd l else 0) = 0 ↔ _
    by_cases h : 1 < l.length
    · rw [if_pos h]
      exact npStd_eq_zero_iff hl
    · rw [if_neg h]
      have hone : l.length = 1 := by
        have := List.length_pos.2 hl
        omega
      constructor
      · intro _ x hx y hy
        cases l with
        | nil => exact absurd rfl hl
        | cons a as =>
          have has : as = [] := by
            simp only [List.length_cons] at hone
            exact List.length_eq_zero.1 (by omega)
          subst has
          simp only [List.mem_singleton] at hx hy
          rw [hx, hy]
      · intro _
        rfl
  · show l.getD 0 0 = l.headD 0
    cases l with
    | nil => exact absurd rfl hl
    | cons a as => rfl

/-- Witness for C6 at the concrete sample list [3, 1, 2]. -/
theorem runInferStats_laws_witness :
    (([3, 1, 2] : List ℚ) ≠ [])
    ∧ ((runInferStats [3, 1, 2]).min ≤ (runInferStats [3, 1, 2]).median
      ∧ (runInferStats [3, 1, 2]).median ≤ (runInferStats [3, 1, 2]).max
      ∧ 0 ≤ (runInferStats [3, 1, 2]).stdDev
      ∧ ((runInferStats [3, 1, 2]).stdDev = 0
          ↔ ∀ x ∈ ([3, 1, 2] : List ℚ), ∀ y ∈ ([3, 1, 2] : List ℚ), x = y)
      ∧ (runInferStats [3, 1, 2]).first = ([3, 1, 2] : List ℚ).headD 0) :=
  ⟨by simp, runInferStats_laws [3, 1, 2] (by simp)⟩

end Dumont
